import Mathlib

/-!
Shallow embedding of `src/backend/main.py` (KTS prompts repository backend).

The store is a list of prompt rows plus the next primary-key value; each
endpoint of the FastAPI app is embedded as a pure function on the store.
Timestamps (`datetime.utcnow()`) are modelled as natural numbers supplied by
the caller ("now").  Python `Optional[str]` query parameters are `Option
String`, and Python truthiness of such a parameter (`if category:`) is the
predicate "present and non-empty".
-/

/-- A row of the `prompts` table (columns of the SQLAlchemy `Table`). -/
structure Prompt where
  id : Nat
  title : String
  prompt_text : String
  category : String
  tags : List String
  source : Option String
  views : Nat
  created_at : Nat
deriving Repr, DecidableEq

/-- The database state: the `prompts` table rows in insertion order, plus the
autoincrement counter that yields the next primary key. -/
structure Store where
  rows : List Prompt
  nextId : Nat
deriving Repr, DecidableEq

/-- Errors the API layer can surface: `HTTPException(404)` from the handler,
or a FastAPI/pydantic request-validation failure (HTTP 422). -/
inductive ApiError where
  | notFound
  | validationError
deriving Repr, DecidableEq

deriving instance DecidableEq for Except

/-- Python truthiness of an `Optional[str]`: `None` and `""` are falsy. -/
def pyTruthy : Option String → Bool
  | none => false
  | some s => s ≠ ""

/-- The pydantic request body `PromptCreate` after validation/defaulting:
`title`, `prompt_text`, `category` required; `tags` defaults to `[]`,
`source` defaults to `None`. -/
structure PromptCreate where
  title : String
  prompt_text : String
  category : String
  tags : List String
  source : Option String
deriving Repr, DecidableEq

/-- A raw create-request body before pydantic validation: every field may be
absent. -/
structure PromptCreateRaw where
  title : Option String
  prompt_text : Option String
  category : Option String
  tags : Option (List String)
  source : Option String
deriving Repr, DecidableEq

/-- Pydantic validation of `PromptCreate`: the three `str` fields are
required (absence is a 422 validation error); `tags` defaults to `[]` and
`source` to `None`.  No non-emptiness constraint is declared on any field. -/
def parsePromptCreate (raw : PromptCreateRaw) : Except ApiError PromptCreate :=
  match raw.title, raw.prompt_text, raw.category with
  | some t, some pt, some c =>
      .ok { title := t, prompt_text := pt, category := c,
            tags := raw.tags.getD [], source := raw.source }
  | _, _, _ => .error .validationError

/-- `POST /api/prompts` (`create_prompt`): insert a row with `views=0` and
`created_at=datetime.utcnow()`, then re-select it by the returned primary key
and return it.  The re-select is a first-match lookup by id. -/
def create_prompt (st : Store) (prompt : PromptCreate) (now : Nat) :
    Except ApiError Prompt × Store :=
  let newRow : Prompt :=
    { id := st.nextId, title := prompt.title, prompt_text := prompt.prompt_text,
      category := prompt.category, tags := prompt.tags, source := prompt.source,
      views := 0, created_at := now }
  let st2 : Store := { rows := st.rows ++ [newRow], nextId := st.nextId + 1 }
  match st2.rows.find? (fun p => p.id == newRow.id) with
  | some r => (.ok r, st2)
  | none => (.error .notFound, st2)

/-- The API-layer create endpoint: pydantic validation then the handler.  On
a validation error the store is untouched. -/
def api_create_prompt (st : Store) (raw : PromptCreateRaw) (now : Nat) :
    Except ApiError Prompt × Store :=
  match parsePromptCreate raw with
  | .error e => (.error e, st)
  | .ok prompt => create_prompt st prompt now

/-- `GET /api/prompts/{prompt_id}` (`get_prompt`): select the row by id; if
absent raise 404; otherwise run `UPDATE prompts SET views = views + 1 WHERE
id = prompt_id`, re-select, and return the updated row. -/
def get_prompt (st : Store) (prompt_id : Nat) : Except ApiError Prompt × Store :=
  match st.rows.find? (fun p => p.id == prompt_id) with
  | none => (.error .notFound, st)
  | some _ =>
    let rows2 := st.rows.map
      (fun p => if p.id = prompt_id then { p with views := p.views + 1 } else p)
    let st2 : Store := { st with rows := rows2 }
    match rows2.find? (fun p => p.id == prompt_id) with
    | some r => (.ok r, st2)
    | none => (.error .notFound, st2)

/-- Default value of the `sort` query parameter (`Query("date", ...)`). -/
def sort_default : String := "date"

/-- Default value of the `limit` query parameter (`Query(100, le=500)`). -/
def limit_default : Nat := 100

/-- Default value of the `offset` query parameter. -/
def offset_default : Nat := 0

/-- FastAPI validation of `sort` against `regex="^(date|popularity)$"`. -/
def sortValid (sort : String) : Bool := sort == "date" || sort == "popularity"

/-- FastAPI validation of `limit` against `le=500`.  This is a constraint
that rejects larger values with a 422 error; it does not clamp them. -/
def limitValid (limit : Nat) : Bool := limit ≤ 500

/-- ASCII lowering of a string, as Python's `str.lower()` on the ASCII
strings the backend deals with (character-wise `Char.toLower`). -/
def lowerChars (s : String) : List Char := s.toList.map Char.toLower

/-- The textual rendering of the JSON `tags` column produced by
`cast(prompts.c.tags, String)`: the JSON serialization of the list of
strings, e.g. `["api", "python"]`. -/
def renderTags (tags : List String) : String :=
  "[" ++ String.intercalate ", " (tags.map (fun t => "\"" ++ t ++ "\"")) ++ "]"

/-- Helper for the `%` wildcard of SQL `LIKE`: the rest of the pattern may
resume at any suffix of the string. -/
def likeSuffix (f : List Char → Bool) : List Char → Bool
  | [] => f []
  | c :: s => f (c :: s) || likeSuffix f s

/-- SQL `LIKE`/`ILIKE` pattern matching over characters, with PostgreSQL's
default escape character (the `.ilike()` call adds no `ESCAPE` clause and
the default `DATABASE_URL` is a PostgreSQL one): a backslash makes the next
pattern character literal, `%` matches any (possibly empty) sequence, `_`
matches exactly one character, and any other pattern character matches one
character case-insensitively (`ILIKE`).  The pattern must consume the whole
string.  A pattern ending in a dangling escape is an error in PostgreSQL;
it cannot arise from `searchPattern` (those patterns end in `%`, which a
preceding escape at worst consumes), and the model makes it match
nothing. -/
def likeMatch : List Char → List Char → Bool
  | [], s => s.isEmpty
  | c :: p, s =>
    if c = '\\' then
      match p with
      | [] => false
      | c2 :: p2 =>
        match s with
        | [] => false
        | c3 :: s2 => (c2.toLower == c3.toLower) && likeMatch p2 s2
    else if c = '%' then likeSuffix (likeMatch p) s
    else
      match s with
      | [] => false
      | c2 :: s2 => (if c = '_' then true else c.toLower == c2.toLower) && likeMatch p s2

/-- The `ILIKE` pattern built by `get_prompts`:
`search_term = f"%{search.lower()}%"`. -/
def searchPattern (search : String) : List Char :=
  '%' :: lowerChars search ++ ['%']

/-- The search disjunction of `get_prompts`: the `ILIKE` pattern is tried
against `title`, `prompt_text`, and the string cast of `tags`. -/
def matchesSearch (search : String) (p : Prompt) : Bool :=
  likeMatch (searchPattern search) p.title.toList ||
  likeMatch (searchPattern search) p.prompt_text.toList ||
  likeMatch (searchPattern search) (renderTags p.tags).toList

/-- `GET /api/prompts` (`get_prompts`) after parameter validation: apply the
category filter (Python-truthy guard, exact match), the search filter
(Python-truthy guard, `ILIKE` over three columns), the `ORDER BY ... DESC`
for the selected sort mode, then `OFFSET`/`LIMIT`. -/
def get_prompts (st : Store) (category search : Option String) (sort : String)
    (limit offset : Nat) : List Prompt :=
  let q := st.rows
  let q := if pyTruthy category then
      q.filter (fun p => p.category == category.getD "") else q
  let q := if pyTruthy search then
      q.filter (matchesSearch (search.getD "")) else q
  let q := if sort == "popularity" then
      q.mergeSort (fun a b => decide (b.views ≤ a.views))
    else
      q.mergeSort (fun a b => decide (b.created_at ≤ a.created_at))
  (q.drop offset).take limit

/-- The API-layer list endpoint: FastAPI validates `sort` (regex) and
`limit` (`le=500`) and rejects bad values with a 422, else runs the
handler.  The store is read-only here. -/
def api_get_prompts (st : Store) (category search : Option String)
    (sort : String) (limit offset : Nat) : Except ApiError (List Prompt) × Store :=
  if sortValid sort && limitValid limit then
    (.ok (get_prompts st category search sort limit offset), st)
  else
    (.error .validationError, st)

/-- `GET /api/categories` (`get_categories`): `SELECT DISTINCT category`. -/
def get_categories (st : Store) : List String × Store :=
  ((st.rows.map (fun p => p.category)).dedup, st)

/-- `GET /api/stats` (`get_stats`): total row count and per-category counts
(`GROUP BY category`). -/
def get_stats (st : Store) : (Nat × List (String × Nat)) × Store :=
  ((st.rows.length,
    (st.rows.map (fun p => p.category)).dedup.map
      (fun c => (c, (st.rows.filter (fun p => p.category == c)).length))), st)

/-- One entry of the hard-coded `example_prompts` seed catalog (title, body,
category, tags, optional source). -/
structure SeedEntry where
  title : String
  prompt_text : String
  category : String
  tags : List String
  source : Option String
deriving Repr, DecidableEq

/-- One seed insert: `prompts.insert().values(**prompt_data, views=0,
created_at=datetime.utcnow())`. -/
def seedInsert (now : Nat) (st : Store) (e : SeedEntry) : Store :=
  { rows := st.rows ++
      [{ id := st.nextId, title := e.title, prompt_text := e.prompt_text,
         category := e.category, tags := e.tags, source := e.source,
         views := 0, created_at := now }],
    nextId := st.nextId + 1 }

/-- `seed_database`: count the rows; if any exist return immediately,
otherwise insert every catalog entry in order.  The literal catalog payloads
are data, so the catalog is a parameter here; the source's
`example_prompts` list is one particular value of it. -/
def seed_database (example_prompts : List SeedEntry) (now : Nat) (st : Store) : Store :=
  let count := st.rows.length
  if count > 0 then st
  else example_prompts.foldl (seedInsert now) st

/-- The rows the seed loop produces when it runs: catalog entries
materialized with consecutive ids from `startId`, `views = 0` and
`created_at = now`. -/
def seedRows (startId now : Nat) : List SeedEntry → List Prompt
  | [] => []
  | e :: es =>
    { id := startId, title := e.title, prompt_text := e.prompt_text,
      category := e.category, tags := e.tags, source := e.source,
      views := 0, created_at := now } :: seedRows (startId + 1) now es

/-- Case-insensitive prefix test on character lists (per-character
`Char.toLower` comparison). -/
def isPrefixCI : List Char → List Char → Bool
  | [], _ => true
  | _ :: _, [] => false
  | a :: t, b :: s => (a.toLower == b.toLower) && isPrefixCI t s

/-- Case-insensitive occurrence test: `t` occurs somewhere inside `s`,
comparing characters case-insensitively. -/
def isInfixCI : List Char → List Char → Bool
  | t, [] => isPrefixCI t []
  | t, c :: s => isPrefixCI t (c :: s) || isInfixCI t s

/-- The spec's notion of a search hit: the term occurs in the string as a
case-insensitive substring. -/
def ciSubstring (term s : String) : Bool := isInfixCI term.toList s.toList

/-- The spec's notion of which records a search should return: the term is a
case-insensitive substring of the title, the prompt text, or the textual
rendering of the tags. -/
def specSearchMatch (term : String) (p : Prompt) : Bool :=
  ciSubstring term p.title || ciSubstring term p.prompt_text ||
  ciSubstring term (renderTags p.tags)

/-- A term is wildcard-free when it contains no SQL `LIKE` metacharacter:
neither `%` nor `_` nor the default escape character `\\`. -/
def wildcardFree (term : String) : Prop :=
  ∀ c ∈ term.toList, c ≠ '%' ∧ c ≠ '_' ∧ c ≠ '\\'

instance (term : String) : Decidable (wildcardFree term) :=
  inferInstanceAs (Decidable (∀ c ∈ term.toList, c ≠ '%' ∧ c ≠ '_' ∧ c ≠ '\\'))

/-- The store after `n` sequential fetches of the same id: iterate the
state effect of `get_prompt`. -/
def fetchStoreN (st : Store) (id : Nat) : Nat → Store
  | 0 => st
  | n + 1 => (get_prompt (fetchStoreN st id n) id).2

/-- All fields of a stored record are preserved except that `views` may
have grown. -/
def recordPreserved (p q : Prompt) : Prop :=
  q.id = p.id ∧ q.title = p.title ∧ q.prompt_text = p.prompt_text ∧
  q.category = p.category ∧ q.tags = p.tags ∧ q.source = p.source ∧
  q.created_at = p.created_at ∧ p.views ≤ q.views

/-- Placeholder record for total indexing (`List.getD`). -/
def defaultPrompt : Prompt :=
  { id := 0, title := "", prompt_text := "", category := "", tags := [],
    source := none, views := 0, created_at := 0 }

/-- A sample stored record whose title contains the letters `abc`. -/
def pAbc : Prompt :=
  { id := 1, title := "abc", prompt_text := "x", category := "c",
    tags := [], source := none, views := 0, created_at := 0 }

/-- A one-record store holding `pAbc`. -/
def stAbc : Store := { rows := [pAbc], nextId := 2 }

/-- A sample stored record with `"hello world"` in its prompt text only. -/
def pHello : Prompt :=
  { id := 1, title := "T", prompt_text := "hello world", category := "X",
    tags := [], source := none, views := 0, created_at := 5 }

/-- A one-record store holding `pHello`. -/
def stHello : Store := { rows := [pHello], nextId := 2 }

/-- A sample seed-catalog entry. -/
def seedEntryW : SeedEntry :=
  { title := "t", prompt_text := "b", category := "c", tags := ["x"],
    source := some "s" }

/-- `Char.toLower` of an upper-case ASCII letter (given by its code point)
is a fixed point of `Char.toLower` and is neither a `LIKE` metacharacter
nor the escape character. -/
theorem toLower_ofNat_shift (n : Nat) (h1 : 65 ≤ n) (h2 : n ≤ 90) :
    Char.toLower (Char.ofNat (n + 32)) = Char.ofNat (n + 32) ∧
    Char.ofNat (n + 32) ≠ '%' ∧ Char.ofNat (n + 32) ≠ '_' ∧
    Char.ofNat (n + 32) ≠ '\\' := by
  interval_cases n <;> exact ⟨by decide, by decide, by decide, by decide⟩

/-- `Char.toLower` is idempotent. -/
theorem toLower_idem (c : Char) : c.toLower.toLower = c.toLower := by
  by_cases h : c.toNat ≥ 65 ∧ c.toNat ≤ 90
  · have hc : c.toLower = Char.ofNat (c.toNat + 32) := by
      unfold Char.toLower
      rw [if_pos h]
    rw [hc]
    exact (toLower_ofNat_shift c.toNat h.1 h.2).1
  · have hc : c.toLower = c := by
      unfold Char.toLower
      rw [if_neg h]
    rw [hc, hc]

/-- `Char.toLower` maps no character onto a `LIKE` metacharacter or the
escape character other than that character itself. -/
theorem toLower_wildcard (c : Char) (h : c ≠ '%' ∧ c ≠ '_' ∧ c ≠ '\\') :
    c.toLower ≠ '%' ∧ c.toLower ≠ '_' ∧ c.toLower ≠ '\\' := by
  by_cases hb : c.toNat ≥ 65 ∧ c.toNat ≤ 90
  · have hc : c.toLower = Char.ofNat (c.toNat + 32) := by
      unfold Char.toLower
      rw [if_pos hb]
    rw [hc]
    exact (toLower_ofNat_shift c.toNat hb.1 hb.2).2
  · have hc : c.toLower = c := by
      unfold Char.toLower
      rw [if_neg hb]
    rw [hc]
    exact h

/-- Unfolding of `likeMatch` at a leading `%`. -/
theorem likeMatch_pct (q : List Char) (s : List Char) :
    likeMatch ('%' :: q) s = likeSuffix (likeMatch q) s := by
  rw [likeMatch.eq_def]
  simp

/-- Unfolding of `likeMatch` at a leading literal character on the empty
string. -/
theorem likeMatch_lit_nil (a : Char) (p : List Char) (h1 : a ≠ '\\')
    (h2 : a ≠ '%') : likeMatch (a :: p) [] = false := by
  rw [likeMatch.eq_def]
  dsimp only
  rw [if_neg h1, if_neg h2]

/-- Unfolding of `likeMatch` at a leading literal character on a nonempty
string. -/
theorem likeMatch_lit_cons (a b : Char) (p s : List Char) (h1 : a ≠ '\\')
    (h2 : a ≠ '%') (h3 : a ≠ '_') :
    likeMatch (a :: p) (b :: s) = ((a.toLower == b.toLower) && likeMatch p s) := by
  rw [likeMatch.eq_def]
  dsimp only
  rw [if_neg h1, if_neg h2]
  simp [h3]

/-- `likeSuffix` only depends on the values of its functional argument. -/
theorem likeSuffix_congr (f g : List Char → Bool) (h : ∀ s, f s = g s) :
    ∀ s, likeSuffix f s = likeSuffix g s := by
  intro s
  induction s with
  | nil => simp [likeSuffix, h]
  | cons c s ih => simp [likeSuffix, h, ih]

/-- Scanning the suffixes with the case-insensitive prefix test is the
case-insensitive occurrence test. -/
theorem likeSuffix_isPrefixCI (t : List Char) :
    ∀ s, likeSuffix (isPrefixCI t) s = isInfixCI t s := by
  intro s
  induction s with
  | nil => simp [likeSuffix, isInfixCI]
  | cons c s ih => simp [likeSuffix, isInfixCI, ih]

/-- The pattern `%` alone matches every string. -/
theorem likeMatch_allpct (s : List Char) : likeMatch ['%'] s = true := by
  induction s with
  | nil =>
    rw [likeMatch_pct]
    simp [likeSuffix, likeMatch]
  | cons c s ih =>
    rw [likeMatch_pct] at ih ⊢
    simp [likeSuffix, ih]

/-- A wildcard-free pattern followed by `%` matches exactly the strings it
is a case-insensitive prefix of. -/
theorem likeMatch_append_pct :
    ∀ t : List Char, (∀ c ∈ t, c ≠ '%' ∧ c ≠ '_' ∧ c ≠ '\\') →
    ∀ s, likeMatch (t ++ ['%']) s = isPrefixCI t s := by
  intro t
  induction t with
  | nil =>
    intro _ s
    simp [isPrefixCI, likeMatch_allpct]
  | cons a t ih =>
    intro hw s
    have ha := hw a (by simp)
    have ih2 := ih (fun c hc => hw c (by simp [hc]))
    cases s with
    | nil =>
      rw [List.cons_append, likeMatch_lit_nil a _ ha.2.2 ha.1]
      simp [isPrefixCI]
    | cons b s =>
      rw [List.cons_append, likeMatch_lit_cons a b _ _ ha.2.2 ha.1 ha.2.1, ih2]
      simp [isPrefixCI]

/-- For a wildcard-free core `t`, the pattern `%t%` matches exactly the
strings in which `t` occurs case-insensitively. -/
theorem likeMatch_search (t : List Char) (hw : ∀ c ∈ t, c ≠ '%' ∧ c ≠ '_' ∧ c ≠ '\\') :
    ∀ s, likeMatch ('%' :: t ++ ['%']) s = isInfixCI t s := by
  intro s
  rw [List.cons_append, likeMatch_pct]
  rw [likeSuffix_congr (likeMatch (t ++ ['%'])) (isPrefixCI t) (likeMatch_append_pct t hw) s]
  exact likeSuffix_isPrefixCI t s

/-- Lowering the needle does not change the case-insensitive prefix test. -/
theorem isPrefixCI_map_toLower : ∀ t s, isPrefixCI (t.map Char.toLower) s = isPrefixCI t s := by
  intro t
  induction t with
  | nil => intro s; simp [isPrefixCI]
  | cons a t ih =>
    intro s
    cases s with
    | nil => simp [isPrefixCI]
    | cons b s => simp [isPrefixCI, toLower_idem, ih]

/-- Lowering the needle does not change the case-insensitive occurrence
test. -/
theorem isInfixCI_map_toLower (t : List Char) : ∀ s, isInfixCI (t.map Char.toLower) s = isInfixCI t s := by
  intro s
  induction s with
  | nil => simp [isInfixCI, isPrefixCI_map_toLower]
  | cons c s ih => simp [isInfixCI, isPrefixCI_map_toLower, ih]

/-- The empty needle occurs in every string. -/
theorem isInfixCI_nil (s : List Char) : isInfixCI [] s = true := by
  cases s <;> simp [isInfixCI, isPrefixCI]

/-- For a wildcard-free search term, the code's triple-`ILIKE` test agrees
with the spec's case-insensitive substring test. -/
theorem matchesSearch_eq_spec (term : String) (hw : wildcardFree term) (p : Prompt) :
    matchesSearch term p = specSearchMatch term p := by
  have hwl : ∀ c ∈ lowerChars term, c ≠ '%' ∧ c ≠ '_' ∧ c ≠ '\\' := by
    intro c hc
    simp only [lowerChars, List.mem_map] at hc
    obtain ⟨a, ha, rfl⟩ := hc
    exact toLower_wildcard a (hw a ha)
  unfold matchesSearch specSearchMatch searchPattern ciSubstring
  simp only [likeMatch_search (lowerChars term) hwl]
  simp only [show lowerChars term = term.toList.map Char.toLower from rfl]
  simp only [isInfixCI_map_toLower]

/-- Incrementing `views` of the matching rows moves `find?` along: the
first record with the wanted id comes out with `views` bumped by one. -/
theorem find?_bump (l : List Prompt) (id : Nat) (p : Prompt)
    (h : l.find? (fun r => r.id == id) = some p) :
    (l.map (fun r => if r.id = id then { r with views := r.views + 1 } else r)).find?
      (fun r => r.id == id) = some { p with views := p.views + 1 } := by
  induction l with
  | nil => simp at h
  | cons a l ih =>
    by_cases ha : a.id = id
    · rw [List.find?_cons_of_pos l (by simp [ha])] at h
      obtain rfl : p = a := (Option.some.inj h).symm
      rw [List.map_cons, List.find?_cons_of_pos _ (by simp [ha])]
      simp [ha]
    · rw [List.find?_cons_of_neg l (by simp [ha])] at h
      rw [List.map_cons, List.find?_cons_of_neg _ (by simp [ha])]
      exact ih h

/-- Evaluation of `get_prompt` when the id is present: the result is the
fetched record with `views` bumped, and the store has exactly that row's
`views` incremented. -/
theorem get_prompt_found (st : Store) (id : Nat) (p : Prompt)
    (h : st.rows.find? (fun r => r.id == id) = some p) :
    get_prompt st id = (.ok { p with views := p.views + 1 },
      { st with rows := st.rows.map (fun r => if r.id = id then { r with views := r.views + 1 } else r) }) := by
  simp only [get_prompt, h, find?_bump st.rows id p h]

/-- Evaluation of `get_prompt` when the id is absent: 404 and the store is
untouched. -/
theorem get_prompt_absent (st : Store) (id : Nat)
    (h : st.rows.find? (fun r => r.id == id) = none) :
    get_prompt st id = (.error .notFound, st) := by
  simp only [get_prompt, h]

/-- After `n` fetches of an id that was present, the first record with that
id has its `views` grown by exactly `n`. -/
theorem fetchStoreN_find? (st : Store) (id : Nat) (p : Prompt)
    (h : st.rows.find? (fun r => r.id == id) = some p) :
    ∀ n, (fetchStoreN st id n).rows.find? (fun r => r.id == id) =
      some { p with views := p.views + n } := by
  intro n
  induction n with
  | zero => simpa using h
  | succ n ih =>
    show ((get_prompt (fetchStoreN st id n) id).2).rows.find? _ = _
    rw [get_prompt_found _ _ _ ih]
    exact find?_bump _ _ _ ih

/-- Appending a fresh-id row makes it the `find?` result for its id. -/
theorem find?_append_fresh (l : List Prompt) (r : Prompt)
    (h : ∀ p ∈ l, p.id ≠ r.id) :
    (l ++ [r]).find? (fun p => p.id == r.id) = some r := by
  induction l with
  | nil => simp [List.find?]
  | cons a l ih =>
    have ha : a.id ≠ r.id := h a (by simp)
    rw [List.cons_append, List.find?_cons_of_neg _ (by simp [ha])]
    exact ih (fun p hp => h p (by simp [hp]))

/-- `seed_database` on a nonempty store is the identity. -/
theorem seed_database_nonempty (cat : List SeedEntry) (now : Nat) (st : Store)
    (h : st.rows ≠ []) : seed_database cat now st = st := by
  have h2 : 0 < st.rows.length := List.length_pos.mpr h
  simp [seed_database, h2]

/-- The seed fold appends exactly the materialized catalog rows. -/
theorem seed_foldl (now : Nat) : ∀ (cat : List SeedEntry) (st : Store),
    (cat.foldl (seedInsert now) st).rows = st.rows ++ seedRows st.nextId now cat := by
  intro cat
  induction cat with
  | nil => intro st; simp [seedRows]
  | cons e es ih =>
    intro st
    rw [List.foldl_cons, ih]
    simp [seedInsert, seedRows, List.append_assoc]

/-- The materialized catalog has one row per catalog entry. -/
theorem seedRows_length (now : Nat) : ∀ (cat : List SeedEntry) (startId : Nat),
    (seedRows startId now cat).length = cat.length := by
  intro cat
  induction cat with
  | nil => intro startId; rfl
  | cons e es ih => intro startId; simp [seedRows, ih]

/-- Every materialized seed row has `views = 0`, the supplied timestamp,
and the payload of some catalog entry. -/
theorem seedRows_fields (now : Nat) : ∀ (cat : List SeedEntry) (startId : Nat),
    ∀ p ∈ seedRows startId now cat, p.views = 0 ∧ p.created_at = now ∧
      ∃ e ∈ cat, p.title = e.title ∧ p.prompt_text = e.prompt_text ∧
        p.category = e.category ∧ p.tags = e.tags ∧ p.source = e.source := by
  intro cat
  induction cat with
  | nil => intro startId p hp; simp [seedRows] at hp
  | cons e es ih =>
    intro startId p hp
    simp only [seedRows, List.mem_cons] at hp
    rcases hp with rfl | hp
    · exact ⟨rfl, rfl, e, by simp, rfl, rfl, rfl, rfl, rfl⟩
    · obtain ⟨h1, h2, e2, he2, hf⟩ := ih (startId + 1) p hp
      exact ⟨h1, h2, e2, by simp [he2], hf⟩

/-- The paginated popularity ordering is non-increasing in `views`. -/
theorem pairwise_views_take_drop (l : List Prompt) (limit offset : Nat) :
    (((l.mergeSort (fun a b => decide (b.views ≤ a.views))).drop offset).take limit).Pairwise
      (fun a b => b.views ≤ a.views) := by
  have hs := @List.sorted_mergeSort Prompt (fun a b : Prompt => decide (b.views ≤ a.views))
    (fun a b c h1 h2 => by simp at *; omega)
    (fun a b => by simpa using Nat.le_total b.views a.views) l
  have hs2 : (l.mergeSort (fun a b => decide (b.views ≤ a.views))).Pairwise
      (fun a b : Prompt => b.views ≤ a.views) :=
    hs.imp (fun h => by simpa using h)
  exact List.Pairwise.sublist ((List.take_sublist _ _).trans (List.drop_sublist _ _)) hs2

/-- The paginated date ordering is non-increasing in `created_at`. -/
theorem pairwise_created_take_drop (l : List Prompt) (limit offset : Nat) :
    (((l.mergeSort (fun a b => decide (b.created_at ≤ a.created_at))).drop offset).take limit).Pairwise
      (fun a b => b.created_at ≤ a.created_at) := by
  have hs := @List.sorted_mergeSort Prompt (fun a b : Prompt => decide (b.created_at ≤ a.created_at))
    (fun a b c h1 h2 => by simp at *; omega)
    (fun a b => by simpa using Nat.le_total b.created_at a.created_at) l
  have hs2 : (l.mergeSort (fun a b => decide (b.created_at ≤ a.created_at))).Pairwise
      (fun a b : Prompt => b.created_at ≤ a.created_at) :=
    hs.imp (fun h => by simpa using h)
  exact List.Pairwise.sublist ((List.take_sublist _ _).trans (List.drop_sublist _ _)) hs2

/-- The empty search term matches every record under the spec's substring
reading. -/
theorem specSearchMatch_empty (p : Prompt) : specSearchMatch "" p = true := by
  simp [specSearchMatch, ciSubstring, isInfixCI_nil]

/-- When the limit is at least the whole sorted list, `drop 0` + `take`
keeps everything, so membership reduces to the unsorted pool. -/
theorem mem_take_drop_mergeSort (le : Prompt → Prompt → Bool) (l : List Prompt)
    (n : Nat) (hn : l.length ≤ n) (p : Prompt) :
    (p ∈ ((l.mergeSort le).drop 0).take n) ↔ p ∈ l := by
  rw [List.drop_zero, List.take_of_length_le (by simpa using hn)]
  exact List.mem_mergeSort

/-- C1: for every prompt id present in the store, `get_prompt` returns the
stored record with `views` bumped by exactly one relative to the value
before the call, and after `n` further sequential fetches of the same id
the returned `views` is `n + 1` above the initial value. -/
theorem C1_get_prompt_increments_views (st : Store) (id : Nat) (p : Prompt)
    (h : st.rows.find? (fun r => r.id == id) = some p) :
    (get_prompt st id).1 = .ok { p with views := p.views + 1 } ∧
    ∀ n, (get_prompt (fetchStoreN st id n) id).1 =
      .ok { p with views := p.views + (n + 1) } := by
  constructor
  · rw [get_prompt_found st id p h]
  · intro n
    rw [get_prompt_found _ _ _ (fetchStoreN_find? st id p h n)]
    simp [Nat.add_assoc]

/-- C1 witness: in the one-record store, the fourth fetch of id 1 returns
the record with `views = 4`. -/
theorem C1_witness :
    stHello.rows.find? (fun r => r.id == 1) = some pHello ∧
    (get_prompt (fetchStoreN stHello 1 3) 1).1 =
      .ok { pHello with views := pHello.views + 4 } :=
  ⟨by decide, (C1_get_prompt_increments_views stHello 1 pHello (by decide)).2 3⟩

/-- C2 counterexample: on the empty store, `limit=1000` is rejected with a
validation error while `limit=500` succeeds, so the two calls do not return
the same result (no cap is applied). -/
theorem C2_counterexample :
    api_get_prompts ⟨[], 1⟩ none none "date" 1000 0 ≠
      api_get_prompts ⟨[], 1⟩ none none "date" 500 0 := by
  simp [api_get_prompts, get_prompts, sortValid, limitValid, pyTruthy]

/-- C2 (amended): a requested limit above 500 is rejected as a validation
error (HTTP 422) rather than capped; the default limit is 100; `limit=0`
returns the empty sequence. -/
theorem C2_limit_validation (st : Store) (category search : Option String)
    (offset : Nat) :
    api_get_prompts st category search "date" 0 offset = (.ok [], st) ∧
    limit_default = 100 ∧
    ∀ limit, 500 < limit →
      api_get_prompts st category search "date" limit offset =
        (.error .validationError, st) := by
  refine ⟨?_, rfl, ?_⟩
  · simp [api_get_prompts, get_prompts, sortValid, limitValid]
  · intro limit h
    have h2 : ¬ limit ≤ 500 := by omega
    simp [api_get_prompts, limitValid, h2]

/-- C2 witness: `limit = 1000` on the one-record store is a validation
error. -/
theorem C2_witness :
    500 < 1000 ∧
    api_get_prompts stHello none none "date" 1000 0 =
      (.error .validationError, stHello) :=
  ⟨by decide, (C2_limit_validation stHello none none 0).2.2 1000 (by decide)⟩

/-- C7: for every id not present in the store, `get_prompt` returns the
404 Not-Found error, which is distinct from the validation error, and the
store is completely unchanged. -/
theorem C7_not_found_leaves_store (st : Store) (id : Nat)
    (h : ∀ p ∈ st.rows, p.id ≠ id) :
    get_prompt st id = (.error .notFound, st) ∧
    ApiError.notFound ≠ ApiError.validationError := by
  refine ⟨?_, by decide⟩
  exact get_prompt_absent st id (List.find?_eq_none.mpr (fun p hp => by simp [h p hp]))

/-- C7 witness: fetching absent id 99 from the one-record store 404s and
leaves the store as it was. -/
theorem C7_witness :
    (∀ p ∈ stHello.rows, p.id ≠ 99) ∧
    get_prompt stHello 99 = (.error .notFound, stHello) ∧
    ApiError.notFound ≠ ApiError.validationError :=
  ⟨by decide, C7_not_found_leaves_store stHello 99 (by decide)⟩

/-- C10: an empty-string `category` applies no category filter (same result
as an absent category), and an empty-string `search` applies no search
filter (same result as an absent search). -/
theorem C10_empty_string_means_absent (st : Store) (category search : Option String)
    (sort : String) (limit offset : Nat) :
    get_prompts st (some "") search sort limit offset =
      get_prompts st none search sort limit offset ∧
    get_prompts st category (some "") sort limit offset =
      get_prompts st category none sort limit offset := by
  constructor <;> simp [get_prompts, pyTruthy]

/-- C3 counterexample: the search term `a_c` is not a case-insensitive
substring of any field of `pAbc`, yet `get_prompts` returns the record,
because `_` is an SQL `LIKE` wildcard in the `ILIKE` pattern. -/
theorem C3_counterexample :
    pAbc ∈ get_prompts stAbc none (some "a_c") "date" 100 0 ∧
    specSearchMatch "a_c" pAbc = false := by
  refine ⟨?_, by decide⟩
  have hf : List.filter (matchesSearch "a_c") stAbc.rows = [pAbc] := by decide
  simp [get_prompts, pyTruthy, hf]

/-- C3 (amended): for every search term free of the SQL `LIKE`
metacharacters `%` and `_` and of the default escape character `\\`, a
record is returned (with a non-truncating limit) iff it is in the store and
the term occurs as a case-insensitive substring of the title, the prompt
text, or the textual rendering of the tags; when additionally a non-empty
category is given, the filters combine with AND (exact category match AND
search match).  Terms containing `%`, `_` or `\\` are instead interpreted
with SQL wildcard/escape semantics. -/
theorem C3_search_filter (term : String) (hw : wildcardFree term) (st : Store)
    (p : Prompt) :
    (p ∈ get_prompts st none (some term) "date" st.rows.length 0 ↔
      (p ∈ st.rows ∧ specSearchMatch term p = true)) ∧
    (∀ cat : String, cat ≠ "" →
      (p ∈ get_prompts st (some cat) (some term) "date" st.rows.length 0 ↔
        (p ∈ st.rows ∧ p.category = cat ∧ specSearchMatch term p = true))) := by
  have hd : (("date" : String) == "popularity") = false := by decide
  have hn : pyTruthy none = false := rfl
  constructor
  · by_cases ht : term = ""
    · subst ht
      have hs : pyTruthy (some "") = false := by simp [pyTruthy]
      simp only [get_prompts, hn, hs, hd, Bool.false_eq_true, if_false]
      rw [mem_take_drop_mergeSort _ _ _ (Nat.le_refl _) p]
      simp [specSearchMatch_empty]
    · have hs : pyTruthy (some term) = true := by simp [pyTruthy, ht]
      simp only [get_prompts, hn, hs, hd, if_true, Bool.false_eq_true, if_false]
      rw [mem_take_drop_mergeSort _ _ _ (List.length_filter_le _ _) p]
      simp [List.mem_filter, matchesSearch_eq_spec term hw]
  · intro cat hcat
    have hc : pyTruthy (some cat) = true := by simp [pyTruthy, hcat]
    by_cases ht : term = ""
    · subst ht
      have hs : pyTruthy (some "") = false := by simp [pyTruthy]
      simp only [get_prompts, hc, hs, hd, if_true, Bool.false_eq_true, if_false]
      rw [mem_take_drop_mergeSort _ _ _ (List.length_filter_le _ _) p]
      simp [List.mem_filter, specSearchMatch_empty]
    · have hs : pyTruthy (some term) = true := by simp [pyTruthy, ht]
      simp only [get_prompts, hc, hs, hd, if_true, Bool.false_eq_true, if_false]
      rw [mem_take_drop_mergeSort _ _ _
        ((List.length_filter_le _ _).trans (List.length_filter_le _ _)) p]
      simp [List.mem_filter, matchesSearch_eq_spec term hw, and_assoc]
      tauto

/-- C3 witness: searching `o W` (a case-insensitive infix of the prompt
text only, as in the spec's `mental` example) returns `pHello` both without
a category and with the matching category. -/
theorem C3_witness :
    wildcardFree "o W" ∧ "X" ≠ "" ∧
    (pHello ∈ get_prompts stHello none (some "o W") "date" stHello.rows.length 0 ↔
      (pHello ∈ stHello.rows ∧ specSearchMatch "o W" pHello = true)) ∧
    (pHello ∈ get_prompts stHello (some "X") (some "o W") "date" stHello.rows.length 0 ↔
      (pHello ∈ stHello.rows ∧ pHello.category = "X" ∧ specSearchMatch "o W" pHello = true)) :=
  ⟨by decide, by decide,
   (C3_search_filter "o W" (by decide) stHello pHello).1,
   (C3_search_filter "o W" (by decide) stHello pHello).2 "X" (by decide)⟩

/-- C4: the two sort modes are exactly `date` (the default) and
`popularity`; any other value fails parameter validation with a 422; the
popularity ordering is non-increasing in `views` and the date ordering is
non-increasing in `created_at`. -/
theorem C4_sort_modes (st : Store) (category search : Option String)
    (limit offset : Nat) :
    (∀ sort : String, sortValid sort = true ↔ (sort = "date" ∨ sort = "popularity")) ∧
    sort_default = "date" ∧
    (∀ sort : String, sort ≠ "date" → sort ≠ "popularity" → limitValid limit = true →
      api_get_prompts st category search sort limit offset =
        (.error .validationError, st)) ∧
    (get_prompts st category search "popularity" limit offset).Pairwise
      (fun a b => b.views ≤ a.views) ∧
    (get_prompts st category search "date" limit offset).Pairwise
      (fun a b => b.created_at ≤ a.created_at) := by
  refine ⟨?_, rfl, ?_, ?_, ?_⟩
  · intro sort
    simp [sortValid]
  · intro sort h1 h2 h3
    simp [api_get_prompts, sortValid, h1, h2]
  · simp only [get_prompts]
    split
    · exact pairwise_views_take_drop _ _ _
    · simp_all
  · simp only [get_prompts]
    split
    · simp_all
    · exact pairwise_created_take_drop _ _ _

/-- C4 witness: `sort=foo` is rejected with a validation error. -/
theorem C4_witness :
    ("foo" ≠ "date" ∧ "foo" ≠ "popularity" ∧ limitValid 100 = true) ∧
    api_get_prompts stHello none none "foo" 100 0 =
      (.error .validationError, stHello) :=
  ⟨⟨by decide, by decide, by decide⟩,
   (C4_sort_modes stHello none none 100 0).2.2.1 "foo" (by decide) (by decide) (by decide)⟩

/-- C5: re-running the seed routine against a nonempty store is the
identity; against an empty store it inserts exactly the catalog, each row
with `views = 0` and the fresh timestamp, carrying some catalog entry's
payload. -/
theorem C5_seed_idempotent (cat : List SeedEntry) (now : Nat) (st : Store) :
    (st.rows ≠ [] → seed_database cat now st = st) ∧
    (st.rows = [] →
      (seed_database cat now st).rows = seedRows st.nextId now cat ∧
      (seed_database cat now st).rows.length = cat.length ∧
      ∀ p ∈ (seed_database cat now st).rows, p.views = 0 ∧ p.created_at = now ∧
        ∃ e ∈ cat, p.title = e.title ∧ p.prompt_text = e.prompt_text ∧
          p.category = e.category ∧ p.tags = e.tags ∧ p.source = e.source) := by
  refine ⟨seed_database_nonempty cat now st, ?_⟩
  intro h
  have h0 : ¬ st.rows.length > 0 := by simp [h]
  have hrows : (seed_database cat now st).rows = seedRows st.nextId now cat := by
    show (if st.rows.length > 0 then st else cat.foldl (seedInsert now) st).rows = _
    rw [if_neg h0, seed_foldl now cat st, h, List.nil_append]
  refine ⟨hrows, ?_, ?_⟩
  · rw [hrows, seedRows_length]
  · rw [hrows]
    exact seedRows_fields now cat st.nextId

/-- C5 witness: seeding the one-record store changes nothing; seeding the
empty store materializes the one-entry catalog. -/
theorem C5_witness :
    (stHello.rows ≠ [] ∧ seed_database [seedEntryW] 7 stHello = stHello) ∧
    ((seed_database [seedEntryW] 7 ⟨[], 1⟩).rows = seedRows 1 7 [seedEntryW] ∧
     (seed_database [seedEntryW] 7 ⟨[], 1⟩).rows.length = [seedEntryW].length ∧
     ∀ p ∈ (seed_database [seedEntryW] 7 (⟨[], 1⟩ : Store)).rows,
       p.views = 0 ∧ p.created_at = 7 ∧
       ∃ e ∈ [seedEntryW], p.title = e.title ∧ p.prompt_text = e.prompt_text ∧
         p.category = e.category ∧ p.tags = e.tags ∧ p.source = e.source) :=
  ⟨⟨by decide, (C5_seed_idempotent [seedEntryW] 7 stHello).1 (by decide)⟩,
   (C5_seed_idempotent [seedEntryW] 7 ⟨[], 1⟩).2 rfl⟩

/-- C6: every accepted create request yields a stored record with
`views = 0`, the server-side timestamp, the fresh id, the requested
payload with `tags` defaulting to `[]` and `source` to absent, and the
returned record is exactly the appended stored record. -/
theorem C6_create_returns_stored (st : Store) (raw : PromptCreateRaw) (now : Nat)
    (t pt c : String) (ht : raw.title = some t) (hpt : raw.prompt_text = some pt)
    (hc : raw.category = some c) (hfresh : ∀ p ∈ st.rows, p.id ≠ st.nextId) :
    ∃ r : Prompt,
      api_create_prompt st raw now =
        (.ok r, { rows := st.rows ++ [r], nextId := st.nextId + 1 }) ∧
      r.views = 0 ∧ r.created_at = now ∧ r.id = st.nextId ∧
      r.title = t ∧ r.prompt_text = pt ∧ r.category = c ∧
      r.tags = raw.tags.getD [] ∧ r.source = raw.source ∧
      (raw.tags = none → r.tags = []) ∧ (raw.source = none → r.source = none) := by
  refine ⟨{ id := st.nextId, title := t, prompt_text := pt, category := c,
            tags := raw.tags.getD [], source := raw.source, views := 0,
            created_at := now }, ?_, rfl, rfl, rfl, rfl, rfl, rfl, rfl, rfl, ?_, ?_⟩
  · simp only [api_create_prompt, parsePromptCreate, ht, hpt, hc, create_prompt]
    have h2 : List.find? (fun p => p.id == st.nextId)
        (st.rows ++ [{ id := st.nextId, title := t, prompt_text := pt, category := c,
                       tags := raw.tags.getD [], source := raw.source, views := 0,
                       created_at := now }]) =
        some { id := st.nextId, title := t, prompt_text := pt, category := c,
               tags := raw.tags.getD [], source := raw.source, views := 0,
               created_at := now } :=
      find?_append_fresh st.rows
        { id := st.nextId, title := t, prompt_text := pt, category := c,
          tags := raw.tags.getD [], source := raw.source, views := 0,
          created_at := now } hfresh
    rw [h2]
  · intro h
    rw [h]
    rfl
  · intro h
    exact h

/-- C6 witness: creating a record with only the required fields on the
one-record store. -/
theorem C6_witness :
    ∃ r : Prompt,
      api_create_prompt stHello ⟨some "T2", some "body", some "Y", none, none⟩ 9 =
        (.ok r, { rows := stHello.rows ++ [r], nextId := stHello.nextId + 1 }) ∧
      r.views = 0 ∧ r.created_at = 9 ∧ r.id = stHello.nextId ∧
      r.title = "T2" ∧ r.prompt_text = "body" ∧ r.category = "Y" ∧
      r.tags = (⟨some "T2", some "body", some "Y", none, none⟩ : PromptCreateRaw).tags.getD [] ∧
      r.source = (⟨some "T2", some "body", some "Y", none, none⟩ : PromptCreateRaw).source ∧
      ((⟨some "T2", some "body", some "Y", none, none⟩ : PromptCreateRaw).tags = none → r.tags = []) ∧
      ((⟨some "T2", some "body", some "Y", none, none⟩ : PromptCreateRaw).source = none → r.source = none) :=
  C6_create_returns_stored stHello ⟨some "T2", some "body", some "Y", none, none⟩ 9
    "T2" "body" "Y" rfl rfl rfl (by decide)

/-- C8 counterexample: a create request whose `title` and `prompt_text`
are the empty string is accepted and a record is inserted — no
non-emptiness validation exists. -/
theorem C8_counterexample :
    (api_create_prompt ⟨[], 1⟩ ⟨some "", some "", some "c", none, none⟩ 0).1 =
      .ok ⟨1, "", "", "c", [], none, 0, 0⟩ ∧
    (api_create_prompt ⟨[], 1⟩ ⟨some "", some "", some "c", none, none⟩ 0).2.rows =
      [⟨1, "", "", "c", [], none, 0, 0⟩] := by
  decide

/-- C8 (amended): a create request missing `title` or missing
`prompt_text` is rejected as a validation error and the store is
unchanged; the empty string, however, passes validation for both fields. -/
theorem C8_missing_required_rejected (st : Store) (raw : PromptCreateRaw) (now : Nat)
    (h : raw.title = none ∨ raw.prompt_text = none) :
    api_create_prompt st raw now = (.error .validationError, st) := by
  obtain ⟨rt, rpt, rc, rtg, rsr⟩ := raw
  rcases h with h | h <;> simp only at h <;> subst h
  · rfl
  · cases rt <;> rfl

/-- C8 witness: a request without a title is rejected and the store is
untouched. -/
theorem C8_witness :
    ((⟨none, some "x", some "c", none, none⟩ : PromptCreateRaw).title = none ∨
     (⟨none, some "x", some "c", none, none⟩ : PromptCreateRaw).prompt_text = none) ∧
    api_create_prompt stHello ⟨none, some "x", some "c", none, none⟩ 3 =
      (.error .validationError, stHello) :=
  ⟨Or.inl rfl, C8_missing_required_rejected stHello ⟨none, some "x", some "c", none, none⟩ 3 (Or.inl rfl)⟩

/-- The store component of `create_prompt` always appends exactly the new
row. -/
theorem create_prompt_snd (st : Store) (pr : PromptCreate) (now : Nat) :
    (create_prompt st pr now).2.rows = st.rows ++
      [{ id := st.nextId, title := pr.title, prompt_text := pr.prompt_text,
         category := pr.category, tags := pr.tags, source := pr.source,
         views := 0, created_at := now }] := by
  unfold create_prompt
  dsimp only
  split <;> rfl

/-- C9: `views` never decreases and only `get_prompt` mutates an existing
record, touching only that record's `views`; `create` preserves all
existing rows in place, the list/categories/stats endpoints are read-only,
and seeding a nonempty store is the identity. -/
theorem C9_store_invariants (st : Store) :
    (∀ id, (get_prompt st id).2 = st ∨
      (get_prompt st id).2.rows =
        st.rows.map (fun p => if p.id = id then { p with views := p.views + 1 } else p)) ∧
    (∀ id i, i < st.rows.length →
      recordPreserved (st.rows.getD i defaultPrompt)
        ((get_prompt st id).2.rows.getD i defaultPrompt)) ∧
    (∀ raw now, (api_create_prompt st raw now).2.rows.take st.rows.length = st.rows) ∧
    (∀ category search sort limit offset,
      (api_get_prompts st category search sort limit offset).2 = st) ∧
    ((get_categories st).2 = st) ∧
    ((get_stats st).2 = st) ∧
    (∀ cat now, st.rows ≠ [] → seed_database cat now st = st) := by
  have hmain : ∀ id : Nat, (get_prompt st id).2 = st ∨
      (get_prompt st id).2.rows =
        st.rows.map (fun p => if p.id = id then { p with views := p.views + 1 } else p) := by
    intro id
    cases hf : st.rows.find? (fun r => r.id == id) with
    | none =>
      left
      rw [get_prompt_absent st id hf]
    | some p =>
      right
      rw [get_prompt_found st id p hf]
  refine ⟨hmain, ?_, ?_, ?_, rfl, rfl, fun cat now h => seed_database_nonempty cat now st h⟩
  · intro id i hi
    rcases hmain id with h | h
    · rw [h]
      exact ⟨rfl, rfl, rfl, rfl, rfl, rfl, rfl, Nat.le_refl _⟩
    · rw [h]
      have hi2 : i < (st.rows.map
          (fun p => if p.id = id then { p with views := p.views + 1 } else p)).length := by
        simpa using hi
      rw [List.getD_eq_getElem _ _ hi2, List.getD_eq_getElem _ _ hi, List.getElem_map]
      by_cases hid : (st.rows[i]).id = id
      · rw [if_pos hid]
        exact ⟨rfl, rfl, rfl, rfl, rfl, rfl, rfl, Nat.le_succ _⟩
      · rw [if_neg hid]
        exact ⟨rfl, rfl, rfl, rfl, rfl, rfl, rfl, Nat.le_refl _⟩
  · intro raw now
    unfold api_create_prompt
    cases hp : parsePromptCreate raw with
    | error e =>
      show List.take st.rows.length st.rows = st.rows
      exact List.take_length st.rows
    | ok pr =>
      show (create_prompt st pr now).2.rows.take st.rows.length = st.rows
      rw [create_prompt_snd]
      exact List.take_left st.rows _
  · intro category search sort limit offset
    unfold api_get_prompts
    split <;> rfl

/-- C9 witness: in the one-record store, fetching id 1 preserves every
field but `views` of the stored record, and re-seeding changes nothing. -/
theorem C9_witness :
    (0 < stHello.rows.length ∧
      recordPreserved (stHello.rows.getD 0 defaultPrompt)
        ((get_prompt stHello 1).2.rows.getD 0 defaultPrompt)) ∧
    (stHello.rows ≠ [] ∧ seed_database [seedEntryW] 9 stHello = stHello) :=
  ⟨⟨by decide, (C9_store_invariants stHello).2.1 1 0 (by decide)⟩,
   by decide, (C9_store_invariants stHello).2.2.2.2.2.2 [seedEntryW] 9 (by decide)⟩
